import Mathlib

/-!
Verification of the FoenixMgr debug-protocol driver (Go) against its
natural-language specification.  The Go sources are shallowly embedded:
machine integers become Nat with explicit reductions modulo 2^8, 2^16,
2^24 or 2^32 where the Go code performs a conversion or can overflow;
fallible code returns Except; the byte-stream transport is a finite list
of incoming bytes together with the result of the single outgoing write;
effectful functions additionally return the ordered trace of the
operations they issue.
-/

namespace Foenix

/-- Go conversion byte(x): keep the low 8 bits. -/
def goByte (x : Nat) : Nat := x % 256

/-- XOR-accumulate a list of bytes starting from an accumulator, as the Go
for-range loops over data do. -/
def xorFold (acc : Nat) (l : List Nat) : Nat := l.foldl (fun a b => a ^^^ b) acc

/-- Protocol request sync byte (commands.go). -/
def RequestSyncByte : Nat := 0x55

/-- Protocol response sync byte (commands.go). -/
def ResponseSyncByte : Nat := 0xAA

/-- Command byte: read memory (commands.go). -/
def CMDReadMem : Nat := 0x00

/-- Command byte: write memory (commands.go). -/
def CMDWriteMem : Nat := 0x01

/-- Command byte: program whole flash (commands.go). -/
def CMDProgramFlash : Nat := 0x10

/-- Command byte: erase whole flash (commands.go). -/
def CMDEraseFlash : Nat := 0x11

/-- Command byte: erase 4KB flash block (commands.go). -/
def CMDEraseSector : Nat := 0x12

/-- Command byte: program flash sector (commands.go). -/
def CMDProgramSector : Nat := 0x13

/-- Length field of a transfer request: len(data) as uint16 when data is
present, otherwise the requested read length (transfer, lines 61-65). -/
def lengthField (data : List Nat) (readLength : Nat) : Nat :=
  if data ≠ [] then data.length % 2 ^ 16 else readLength

/-- The 7-byte request header built by transfer (lines 67-78):
sync, command, 24-bit big-endian address, 16-bit big-endian length. -/
def buildHeader (command address : Nat) (len : Nat) : List Nat :=
  [RequestSyncByte, command,
   goByte (address >>> 16), goByte (address >>> 8), goByte address,
   goByte (len >>> 8), goByte len]

/-- The LRC computed by transfer (lines 80-91): XOR of the header bytes at
indices 0 through 5 (the Go loop bound is i < 6, so it covers exactly the
first six header bytes), then XOR of every data byte when data is
present. -/
def transferLRC (header : List Nat) (data : List Nat) : Nat :=
  xorFold (xorFold 0 (header.take 6)) data

/-- The full request packet sent by transfer (lines 93-99):
header, then data when present, then the LRC byte. -/
def buildPacket (command address : Nat) (data : List Nat) (readLength : Nat) :
    List Nat :=
  let header := buildHeader command address (lengthField data readLength)
  header ++ data ++ [transferLRC header data]

/-- Session status bytes stored on the DebugPort (fields status0/status1). -/
structure DPState where
  status0 : Nat
  status1 : Nat
  deriving Repr, DecidableEq

/-- GetStatus0 returns the first stored status byte. -/
def GetStatus0 (dp : DPState) : Nat := dp.status0

/-- GetStatus1 returns the second stored status byte. -/
def GetStatus1 (dp : DPState) : Nat := dp.status1

/-- Transport model: the outcome of the single Write call made by transfer
(none models a write error, some n a reported count of n bytes), and the
incoming byte stream available to subsequent Read calls.  Both serial and
TCP connections implement Read(n) as exactly n bytes or an error, so a
Read consumes the next n bytes of the stream and fails when fewer are
left. -/
structure Conn where
  writeResult : Option Nat
  input : List Nat

/-- Read exactly n bytes from the stream, as Connection.Read does:
the bytes and the rest of the stream, or failure when the stream is
exhausted first. -/
def readN (n : Nat) (l : List Nat) : Option (List Nat × List Nat) :=
  if n ≤ l.length then some (l.take n, l.drop n) else none

/-- The sync-byte scan of transfer (lines 109-117): read single bytes,
discarding them, until the response sync byte appears; return the rest of
the stream.  When the stream runs out first, the read of the next byte
fails. -/
def scanSync : List Nat → Option (List Nat)
  | [] => none
  | b :: rest => if b = ResponseSyncByte then some rest else scanSync rest

/-- Tail of DebugPort.transfer after the status bytes are stored
(part_007, lines 127-142): read the data when readLength > 0, then read
one trailing LRC byte which is received but never verified. -/
def transferTail (st2 : DPState) (readLength : Nat) (rest2 : List Nat) :
    DPState × Except String (List Nat) :=
  if readLength > 0 then
    match readN readLength rest2 with
    | none => (st2, .error "failed to read data")
    | some (readBytes, rest3) =>
      match readN 1 rest3 with
      | none => (st2, .error "failed to read LRC")
      | some _ => (st2, .ok readBytes)
  else
    match readN 1 rest2 with
    | none => (st2, .error "failed to read LRC")
    | some _ => (st2, .ok [])

/-- Shallow embedding of DebugPort.transfer (part_007, lines 56-143).
Returns the final stored status bytes together with the result: the data
bytes read, or the error of the step that failed.  Follows the source step
by step: reset both status bytes to 0; build and send the packet, failing
on a write error or a short write; scan for the response sync byte; read
the 2 status bytes and store them; read the data when readLength > 0;
read the trailing LRC byte without verifying it. -/
def transfer (command address : Nat) (data : List Nat) (readLength : Nat)
    (conn : Conn) : DPState × Except String (List Nat) :=
  let st : DPState := ⟨0, 0⟩
  let packet := buildPacket command address data readLength
  match conn.writeResult with
  | none => (st, .error "failed to write packet")
  | some written =>
    if written ≠ packet.length then (st, .error "incomplete write")
    else
      match scanSync conn.input with
      | none => (st, .error "failed to read sync byte")
      | some rest =>
        match readN 2 rest with
        | none => (st, .error "failed to read status bytes")
        | some (statusBytes, rest2) =>
          transferTail ⟨statusBytes.getD 0 0, statusBytes.getD 1 0⟩
            readLength rest2

/-- Go uint8 multiplication (wraps modulo 256). -/
def mul8 (a b : Nat) : Nat := a * b % 256

/-- Go uint8 addition (wraps modulo 256). -/
def add8 (a b : Nat) : Nat := (a + b) % 256

/-- Go uint32 shift left by 16 of a small value, as in uint32(x) << 16. -/
def shl16u32 (x : Nat) : Nat := x * 2 ^ 16 % 2 ^ 32

/-- The ordered (command, address) pairs of the transfer calls issued by
DebugPort.EraseSector (part_007, lines 208-224): two erase-sector
commands, at uint32 addresses uint32(sector*2) << 16 and
uint32(sector*2+1) << 16, where sector*2 and sector*2+1 are computed in
uint8 arithmetic.  A transfer failure makes the Go function return after
only the first of these calls; the list records the calls of the
complete run. -/
def EraseSectorOps (sector : Nat) : List (Nat × Nat) :=
  [(CMDEraseSector, shl16u32 (mul8 sector 2)),
   (CMDEraseSector, shl16u32 (add8 (mul8 sector 2) 1))]

/-- The ordered (command, address) pairs of the transfer calls issued by
DebugPort.ProgramSector (part_007, lines 235-243): one program-sector
command at uint32 address uint32(sector*2) << 16. -/
def ProgramSectorOps (sector : Nat) : List (Nat × Nat) :=
  [(CMDProgramSector, shl16u32 (mul8 sector 2))]

/-- The three big-endian bytes that buildHeader places in the 24-bit
address field of the wire frame for a given uint32 address. -/
def addrFieldBytes (address : Nat) : List Nat :=
  [goByte (address >>> 16), goByte (address >>> 8), goByte address]

/-- A memory operation issued by the alignment adapter: a read-block
request of a given length, or a write-block of a byte buffer. -/
inductive MemOp where
  | read (address len : Nat)
  | write (address : Nat) (data : List Nat)
  deriving Repr, DecidableEq

/-- Go copy(block[k:], data): overwrite block from index k on with
min(len(block) - k, len(data)) bytes of data, leaving the rest. -/
def goCopyAt (block : List Nat) (k : Nat) (data : List Nat) : List Nat :=
  block.take k ++ data.take (block.length - k) ++ block.drop (k + data.length)

/-- Shallow embedding of DebugPort.WriteBlock32 (alignment.go, lines
11-52).  The single hardware read the unaligned path performs is supplied
by the oracle readResult (none models a transport error); the function is
otherwise the Go code step for step, with the uint32 arithmetic on sizes
and the uint16 conversion of the read length made explicit.  Returns the
ordered trace of issued memory operations and the result. -/
def WriteBlock32 (address : Nat) (data : List Nat)
    (readResult : Option (List Nat)) :
    List MemOp × Except String Unit :=
  let size := data.length % 2 ^ 32
  let addressAlign := address % 4
  if addressAlign = 0 ∧ size % 4 = 0 then
    ([MemOp.write address data], .ok ())
  else
    let adjustedAddress := address - addressAlign
    let adjustedSize0 := (size + addressAlign) % 2 ^ 32
    let sizeAlign := adjustedSize0 % 4
    let adjustedSize :=
      if sizeAlign > 0 then (adjustedSize0 + (4 - sizeAlign)) % 2 ^ 32
      else adjustedSize0
    let readLen := adjustedSize % 2 ^ 16
    match readResult with
    | none =>
      ([MemOp.read adjustedAddress readLen],
       .error "failed to read block for alignment")
    | some block =>
      if block.length % 2 ^ 32 ≠ adjustedSize then
        ([MemOp.read adjustedAddress readLen],
         .error "read returned fewer bytes than expected")
      else
        ([MemOp.read adjustedAddress readLen,
          MemOp.write adjustedAddress (goCopyAt block addressAlign data)],
         .ok ())

/-- Rounding up to the next multiple of 4, as the claim about the
alignment adapter states it. -/
def roundUpToMultipleOf4 (n : Nat) : Nat :=
  if n % 4 = 0 then n else n + (4 - n % 4)

/-- A write operation emitted to the write-sink: address and bytes. -/
abbrev WriteOp := Nat × List Nat

/-- Config.CPUIsMotorolatype680X0 (config.go, lines 119-122). -/
def CPUIsMotorolatype680X0 (cpu : String) : Bool :=
  cpu == "m68k" || cpu == "68000" || cpu == "68040" || cpu == "68060"

/-- setup65816Vectors (vectors.go, lines 30-65): the ordered WriteOps the
65816 reset-vector configurator hands to the write-sink.  Outside bank 0
it writes the CLC, XCE, JML stub with the shifted-and-truncated address
bytes at 0xFF80 and points the reset vector at the stub; inside bank 0 it
writes the low two address bytes at 0xFFFC. -/
def setup65816Vectors (startAddress : Nat) : List WriteOp :=
  if startAddress &&& 0xFF0000 ≠ 0 then
    [(0xFF80, [0x18, 0xFB, 0x5C, goByte startAddress,
       goByte (startAddress >>> 8), goByte (startAddress >>> 16)]),
     (0xFFFC, [0x80, 0xFF])]
  else
    [(0xFFFC, [goByte startAddress, goByte (startAddress >>> 8)])]

/-- setup65C02Vectors (vectors.go, lines 68-100): reset vector, CROSSDEV
signature, microkernel start address, kernel-args length. -/
def setup65C02Vectors (startAddress : Nat) : List WriteOp :=
  [(0xFFFC, [goByte startAddress, goByte (startAddress >>> 8)]),
   (0x0080, [0x43, 0x52, 0x4F, 0x53, 0x53, 0x44, 0x45, 0x56]),
   (0x0088, [goByte startAddress, goByte (startAddress >>> 8)]),
   (0x00FA, [0x00, 0x00])]

/-- setup680X0Vectors (vectors.go, lines 103-117): big-endian 32-bit
reset vector at absolute address 4. -/
def setup680X0Vectors (startAddress : Nat) : List WriteOp :=
  [(0x00000004, [goByte (startAddress >>> 24), goByte (startAddress >>> 16),
     goByte (startAddress >>> 8), goByte startAddress])]

/-- SetupResetVectors (vectors.go, lines 11-27): dispatch on the CPU
string, failing on unsupported identifiers. -/
def SetupResetVectors (cpu : String) (startAddress : Nat) :
    Except String (List WriteOp) :=
  if cpu = "65816" then .ok (setup65816Vectors startAddress)
  else if cpu = "65c02" ∨ cpu = "65C02" then
    .ok (setup65C02Vectors startAddress)
  else if CPUIsMotorolatype680X0 cpu then .ok (setup680X0Vectors startAddress)
  else .error "unsupported CPU type"

/-- PGXLoader.verifyCPUCompatibility (wdc.go, lines 213-235): the switch
over the embedded CPU id, returning the error when the configured CPU
string does not belong to the family the id names (1 = 65816, 3 = 65C02,
2 = 680x0 family, anything else unsupported). -/
def verifyCPUCompatibility (pgxCPU : Nat) (cpu : String) : Option String :=
  if pgxCPU = 0x01 then
    if cpu ≠ "65816" then some "PGX is built for 65816" else none
  else if pgxCPU = 0x03 then
    if cpu ≠ "65C02" ∧ cpu ≠ "65c02" then some "PGX is built for 65C02"
    else none
  else if pgxCPU = 0x02 then
    if ¬CPUIsMotorolatype680X0 cpu then some "PGX is built for 680x0"
    else none
  else some "unsupported PGX CPU type"

/-- The claim-side family-match predicate: id 1 names the 65816, id 3 the
65C02 (either spelling of the configured string), id 2 the 680x0 family,
and no other id matches any configured family. -/
def cpuMatches (pgxCPU : Nat) (cpu : String) : Bool :=
  if pgxCPU = 0x01 then cpu == "65816"
  else if pgxCPU = 0x03 then cpu == "65C02" || cpu == "65c02"
  else if pgxCPU = 0x02 then CPUIsMotorolatype680X0 cpu
  else false

/-- binary.LittleEndian.Uint32 of the first four list entries. -/
def readLE32 (l : List Nat) : Nat :=
  l.getD 0 0 + l.getD 1 0 * 2 ^ 8 + l.getD 2 0 * 2 ^ 16 + l.getD 3 0 * 2 ^ 24

/-- PGXLoader.Process (wdc.go, lines 160-210) over in-memory file bytes:
size check, signature check, version-nibble check, CPU-compatibility
check, then one write of the payload at the 32-bit little-endian header
address followed by the reset-vector writes.  The write-sink is modelled
as a collector, so the result is the ordered list of writes handed to it
together with the error, if any. -/
def PGXProcess (data : List Nat) (cpu : String) :
    List WriteOp × Option String :=
  if data.length < 8 then ([], some "file too small to be valid PGX")
  else if data.take 3 ≠ [0x50, 0x47, 0x58] then
    ([], some "bad PGX signature")
  else
    let versionByte := data.getD 3 0
    if versionByte >>> 4 &&& 0x0F > 0 then
      ([], some "unsupported PGX version")
    else
      match verifyCPUCompatibility (versionByte &&& 0x0F) cpu with
      | some e => ([], some e)
      | none =>
        let address := readLE32 (data.drop 4)
        match SetupResetVectors cpu address with
        | .ok vs => ((address, data.drop 8) :: vs, none)
        | .error e => ([(address, data.drop 8)], some e)

/-- Update one memory cell. -/
def memUpd (mem : Nat → Nat) (i v : Nat) : Nat → Nat :=
  fun j => if j = i then v else mem j

/-- Place a list of bytes in memory at consecutive addresses starting at
a, each cell index reduced modulo 2^32 as the uint32 address arithmetic
of the write path does; later bytes overwrite earlier ones. -/
def writeBytes (mem : Nat → Nat) (a : Nat) : List Nat → (Nat → Nat)
  | [] => mem
  | b :: rest => writeBytes (memUpd mem (a % 2 ^ 32) b) (a + 1) rest

/-- Apply a single WriteOp to memory. -/
def applyWriteOp (mem : Nat → Nat) (w : WriteOp) : Nat → Nat :=
  writeBytes mem w.1 w.2

/-- Apply a list of WriteOps to memory, in order. -/
def applyWriteOps (mem : Nat → Nat) (ws : List WriteOp) : Nat → Nat :=
  ws.foldl applyWriteOp mem

/-- The per-iteration chunk size of the PGZ chunking loop (pgz.go, lines
104-107): 1024, capped by the remaining byte count. -/
def currentChunkSize (totalLength : Nat) : Nat :=
  if totalLength < 1024 then totalLength else 1024

/-- The chunking loop of PGZLoader.Process for a large data block
(pgz.go, lines 99-115): while bytes remain, emit a chunk of at most 1024
bytes at address + chunkOffset (uint32 addition) and advance.  The Go
loop variable totalLength starts at len(block) and chunkOffset at 0. -/
def pgzChunkLoop (address : Nat) (block : List Nat)
    (chunkOffset totalLength : Nat) : List WriteOp :=
  if totalLength = 0 then []
  else
    ((address + chunkOffset) % 2 ^ 32,
      (block.drop chunkOffset).take (currentChunkSize totalLength)) ::
      pgzChunkLoop address block (chunkOffset + currentChunkSize totalLength)
        (totalLength - currentChunkSize totalLength)
termination_by totalLength
decreasing_by
  simp_wf
  unfold currentChunkSize
  split <;> omega

/-- The write-sink calls PGZLoader.Process makes for one regular data
block (pgz.go, lines 94-122): blocks over 1024 bytes go through the
chunking loop, smaller ones are sent directly. -/
def pgzEmitBlock (address : Nat) (block : List Nat) : List WriteOp :=
  if block.length > 1024 then pgzChunkLoop address block 0 block.length
  else [(address, block)]

/-- WDCLoader.readBlock, the declared little-endian 24-bit address at an
offset (wdc.go, lines 88-90). -/
def wdcAddr (data : List Nat) (offset : Nat) : Nat :=
  data.getD offset 0 ||| data.getD (offset + 1) 0 <<< 8 |||
    data.getD (offset + 2) 0 <<< 16

/-- WDCLoader.readBlock, the declared little-endian 24-bit length at an
offset (wdc.go, lines 93-95). -/
def wdcLen (data : List Nat) (offset : Nat) : Nat :=
  data.getD (offset + 3) 0 ||| data.getD (offset + 4) 0 <<< 8 |||
    data.getD (offset + 5) 0 <<< 16

/-- WDCLoader.readBlock (wdc.go, lines 81-115): check that the six
header bytes fit before decoding them, return the terminator on address
0, and check that the declared data fits before slicing it out.
Returns (address, block, new offset). -/
def wdcReadBlock (data : List Nat) (offset : Nat) :
    Except String (Nat × List Nat × Nat) :=
  if offset + 6 > data.length then .error "unexpected end of file"
  else if wdcAddr data offset = 0 then .ok (0, [], offset + 6)
  else if offset + 6 + wdcLen data offset > data.length then
    .error "data block exceeds file size"
  else
    .ok (wdcAddr data offset,
      (data.drop (offset + 6)).take (wdcLen data offset),
      offset + 6 + wdcLen data offset)

/-- PGZLoader.readLittleEndianInt (pgz.go, lines 169-175): fold the first
byteCount bytes little-endian, stopping early at the end of the slice as
the loop condition i < len(data) does. -/
def readLittleEndianInt (l : List Nat) (byteCount : Nat) : Nat :=
  (List.range byteCount).foldl
    (fun v i => if i < l.length then v ||| l.getD i 0 <<< (i * 8) else v) 0

/-- PGZLoader.readBlock (pgz.go, lines 130-166): check that the two
address-size fields fit before decoding them, return the terminator on
address 0 and the start-address block on size 0, and check that the
declared data fits before slicing it out. -/
def pgzReadBlock (addressSize : Nat) (data : List Nat) (offset : Nat) :
    Except String (Nat × List Nat × Nat) :=
  if offset + addressSize * 2 > data.length then
    .error "unexpected end of file"
  else if readLittleEndianInt (data.drop offset) addressSize = 0 then
    .ok (0, [], offset + addressSize + addressSize)
  else if readLittleEndianInt (data.drop (offset + addressSize))
      addressSize = 0 then
    .ok (readLittleEndianInt (data.drop offset) addressSize, [],
      offset + addressSize + addressSize)
  else if offset + addressSize + addressSize +
      readLittleEndianInt (data.drop (offset + addressSize)) addressSize >
      data.length then
    .error "data block exceeds file size"
  else
    .ok (readLittleEndianInt (data.drop offset) addressSize,
      (data.drop (offset + addressSize + addressSize)).take
        (readLittleEndianInt (data.drop (offset + addressSize)) addressSize),
      offset + addressSize + addressSize +
        readLittleEndianInt (data.drop (offset + addressSize)) addressSize)

/-- One Intel HEX record after the regex match of IntelHexLoader.Process
(intelhex.go, lines 64-74): the parsed byte count, 16-bit record address
and record type, and the hex digits of the data field in order.  The
regex guarantees the digit counts of the fixed fields and that every
digit value is below 16. -/
structure HexRecord where
  byteCount : Nat
  address : Nat
  rtype : Nat
  dataNib : List Nat
  deriving Repr, DecidableEq

/-- Pair up hex digits into bytes, as hexStringToBytes (loader.go, lines
49-64) does for an even-length digit string. -/
def nibsToBytes : List Nat → List Nat
  | a :: b :: rest => (a * 16 + b) :: nibsToBytes rest
  | _ => []

/-- strconv.ParseUint(dataHex, 16, 32) with its error discarded, as the
0x02 and 0x04 record handlers do (intelhex.go, lines 103 and 108): the
hex value when it fits 32 bits, else the clamped maximum that Go returns
alongside the ignored range error. -/
def parseHexUint32 (nibs : List Nat) : Nat :=
  if nibs.foldl (fun acc d => acc * 16 + d) 0 < 2 ^ 32 then
    nibs.foldl (fun acc d => acc * 16 + d) 0
  else 2 ^ 32 - 1

/-- IntelHexLoader.Process (intelhex.go, lines 38-124) over the list of
regex-matched records, carrying the running base address: data records
(0x00) check the hex digits and byte count and are delivered at
baseAddress + address in uint32 arithmetic, 0x01 ends processing, 0x02
sets baseAddress to uint32(value) << 4, 0x04 to uint32(value) << 16,
0x03 and 0x05 are skipped, anything else is an error.  Returns the writes
handed to the sink and the error if any. -/
def IntelHexProcess (recs : List HexRecord) (baseAddress : Nat) :
    List WriteOp × Option String :=
  match recs with
  | [] => ([], none)
  | r :: rest =>
    if r.rtype = 0x00 then
      if r.dataNib.length % 2 ≠ 0 then ([], some "invalid data")
      else if (nibsToBytes r.dataNib).length ≠ r.byteCount then
        ([], some "byte count mismatch")
      else
        (((baseAddress + r.address) % 2 ^ 32, nibsToBytes r.dataNib) ::
          (IntelHexProcess rest baseAddress).1,
         (IntelHexProcess rest baseAddress).2)
    else if r.rtype = 0x01 then ([], none)
    else if r.rtype = 0x02 then
      IntelHexProcess rest (parseHexUint32 r.dataNib % 2 ^ 32 * 2 ^ 4 % 2 ^ 32)
    else if r.rtype = 0x04 then
      IntelHexProcess rest
        (parseHexUint32 r.dataNib % 2 ^ 32 * 2 ^ 16 % 2 ^ 32)
    else if r.rtype = 0x03 ∨ r.rtype = 0x05 then
      IntelHexProcess rest baseAddress
    else ([], some "unsupported record type")

/-- The claim-side Intel HEX state machine, written from the claim:
a record of type 0x02 sets the running base to value << 4 and one of type
0x04 sets it to value << 16 (32-bit base register); every data record is
delivered at base + its 16-bit record address (uint32 sum); a record of
type 0x01 terminates processing; start-address records are skipped and
anything else stops the run. -/
def IntelHexClaimWrites (recs : List HexRecord) (base : Nat) :
    List WriteOp :=
  match recs with
  | [] => []
  | r :: rest =>
    if r.rtype = 0x00 then
      ((base + r.address) % 2 ^ 32, nibsToBytes r.dataNib) ::
        IntelHexClaimWrites rest base
    else if r.rtype = 0x01 then []
    else if r.rtype = 0x02 then
      IntelHexClaimWrites rest (parseHexUint32 r.dataNib <<< 4 % 2 ^ 32)
    else if r.rtype = 0x04 then
      IntelHexClaimWrites rest (parseHexUint32 r.dataNib <<< 16 % 2 ^ 32)
    else if r.rtype = 0x03 ∨ r.rtype = 0x05 then
      IntelHexClaimWrites rest base
    else []

/-- The configuration fields the flash commands consult (config.go):
CPU string, chunk size, configured flash size, and the machine-specific
page, sector and RAM-buffer sizes in KB. -/
structure Config where
  cpu : String
  chunkSize : Nat
  flashSize : Nat
  flashPageSize : Nat
  flashSectorSize : Nat
  ramSize : Nat
  deriving Repr, DecidableEq

/-- The observable steps of the flash commands (part_001): the size
warning print, and the hardware interactions in order — opening the
connection, entering debug mode, and the session operations.  The
deferred debug exit and connection close on function return, and the
purely informational prints, are not recorded. -/
inductive FlashEvent where
  | warn
  | connOpen
  | enterDebug
  | writeBlock (address : Nat) (data : List Nat)
  | eraseFlash
  | programFlash (address : Nat)
  | eraseSector (page : Nat)
  | programSector (page : Nat)
  deriving Repr, DecidableEq

/-- Run planned steps in order against the hardware oracle, stopping at
the first failure as every flash command does (each Go step is followed
by an early error return). -/
def runSteps (hw : FlashEvent → Except String Unit) :
    List FlashEvent → List FlashEvent × Except String Unit
  | [] => ([], .ok ())
  | ev :: rest =>
    match hw ev with
    | .error e => ([ev], .error e)
    | .ok _ => (ev :: (runSteps hw rest).1, (runSteps hw rest).2)

/-- The per-iteration chunk size of uploadChunked and of the sector page
loop: the configured chunk size capped by the remaining byte count
(part_001, lines 356-361 and 524-529). -/
def goChunk (chunkSize remaining : Nat) : Nat :=
  if chunkSize > remaining then remaining else chunkSize

/-- The WriteBlock calls of uploadChunked (part_001, lines 520-540):
chunks of the data in order, at consecutive uint32 addresses from the
start address.  The fuel bounds the iteration count; data.length + 1
suffices whenever the chunk size is positive (with chunk size 0 the Go
loop does not terminate). -/
def uploadChunkedGo (fuel chunkSize address : Nat) (data : List Nat)
    (offset : Nat) : List FlashEvent :=
  match fuel with
  | 0 => []
  | fuel + 1 =>
    if offset < data.length then
      FlashEvent.writeBlock (address % 2 ^ 32)
        ((data.drop offset).take (goChunk chunkSize (data.length - offset))) ::
        uploadChunkedGo fuel chunkSize
          (address + goChunk chunkSize (data.length - offset)) data
          (offset + goChunk chunkSize (data.length - offset))
    else []

/-- uploadChunked from its entry point. -/
def uploadChunked (chunkSize address : Nat) (data : List Nat) :
    List FlashEvent :=
  uploadChunkedGo (data.length + 1) chunkSize address data 0

/-- The paged upload-erase-program loop of flashProgramSector (part_001,
lines 352-400), including the trailing last-page erase and program
that the Go code performs after the loop when ramAddress > 0.  Pages are
uint8, so the page increment wraps modulo 256. -/
def sectorPagesLoopGo (fuel chunkSize ramLimit : Nat) (data : List Nat)
    (written ramAddress page : Nat) : List FlashEvent :=
  match fuel with
  | 0 => []
  | fuel + 1 =>
    if written < data.length then
      FlashEvent.writeBlock (ramAddress % 2 ^ 32)
        ((data.drop written).take (goChunk chunkSize (data.length - written))) ::
        (if ramAddress + goChunk chunkSize (data.length - written) ≥
            ramLimit then
          FlashEvent.eraseSector page :: FlashEvent.programSector page ::
            sectorPagesLoopGo fuel chunkSize ramLimit data
              (written + goChunk chunkSize (data.length - written)) 0
              ((page + 1) % 256)
        else
          sectorPagesLoopGo fuel chunkSize ramLimit data
            (written + goChunk chunkSize (data.length - written))
            (ramAddress + goChunk chunkSize (data.length - written)) page)
    else if ramAddress > 0 then
      [FlashEvent.eraseSector page, FlashEvent.programSector page]
    else []

/-- flashProgramFull (part_001, lines 214-286) with the file already
read and the address already parsed: a length different from the
configured flash size prints a warning and continues; after the user
confirmation the command opens the connection, enters debug mode unless
the CPU is already stopped, uploads the image in chunks to the staging
address, erases the whole flash, and programs it from that address. -/
def flashProgramFull (cfg : Config) (addr : Nat) (data : List Nat)
    (confirmAnswer isStopped : Bool)
    (hw : FlashEvent → Except String Unit) :
    List FlashEvent × Except String Unit :=
  if confirmAnswer = false then
    (if data.length ≠ cfg.flashSize then [FlashEvent.warn] else [], .ok ())
  else
    ((if data.length ≠ cfg.flashSize then [FlashEvent.warn] else []) ++
      (runSteps hw
        (FlashEvent.connOpen ::
          (if isStopped then [] else [FlashEvent.enterDebug]) ++
          uploadChunked cfg.chunkSize addr data ++
          [FlashEvent.eraseFlash, FlashEvent.programFlash addr])).1,
     (runSteps hw
        (FlashEvent.connOpen ::
          (if isStopped then [] else [FlashEvent.enterDebug]) ++
          uploadChunked cfg.chunkSize addr data ++
          [FlashEvent.eraseFlash, FlashEvent.programFlash addr])).2)

/-- flashProgramSector (part_001, lines 289-404) with the file already
read and the sector number already parsed (ParseUint with bit size 8
keeps it below 256): fail when the target has no page or sector size,
fail when the file length is not exactly sectorSize KB, and only then
confirm, open the connection, enter debug mode unless stopped, and run
the paged loop from startPage = uint8(sectorNum) * uint8(pagesPerSector)
in uint8 arithmetic. -/
def flashProgramSector (cfg : Config) (sectorNum : Nat) (data : List Nat)
    (confirmAnswer isStopped : Bool)
    (hw : FlashEvent → Except String Unit) :
    List FlashEvent × Except String Unit :=
  if cfg.flashPageSize = 0 ∨ cfg.flashSectorSize = 0 then
    ([], .error "target machine does not support flash sector programming")
  else if data.length ≠ cfg.flashSectorSize * 1024 then
    ([], .error "file size does not match sector size")
  else if confirmAnswer = false then ([], .ok ())
  else
    runSteps hw
      (FlashEvent.connOpen ::
        (if isStopped then [] else [FlashEvent.enterDebug]) ++
        sectorPagesLoopGo (data.length + 1) cfg.chunkSize
          (cfg.ramSize * 1024) data 0 0
          (sectorNum % 256 * (cfg.flashSectorSize / cfg.flashPageSize % 256)
            % 256))

end Foenix

namespace Foenix

/-- Pulling the accumulator out of an XOR fold. -/
lemma xorFold_eq_xor (a : Nat) (l : List Nat) :
    xorFold a l = a ^^^ xorFold 0 l := by
  induction l generalizing a with
  | nil => simp [xorFold]
  | cons b t ih =>
    simp only [xorFold, List.foldl_cons] at *
    rw [ih (a ^^^ b), ih (0 ^^^ b), Nat.zero_xor, Nat.xor_assoc]

/-- C1: for every request sent by transfer, the checksum byte transmitted
after the data equals the XOR of the header bytes at offsets 0 through 5
(sync 0x55, the command, the three big-endian address bytes, and the high
byte of the length field; the low length byte at offset 6 is excluded),
XORed with every data byte.  The claim-side bytes are spelled with
division and remainder; the packet builder computes them with shifts and
a counted loop. -/
theorem transfer_checksum_covers_header_0_to_5_and_data
    (command address : Nat) (data : List Nat) (readLength : Nat) :
    buildPacket command address data readLength =
      buildHeader command address (lengthField data readLength) ++ data ++
        [(((((0x55 ^^^ command) ^^^ address / 2 ^ 16 % 256) ^^^
            address / 2 ^ 8 % 256) ^^^ address % 256) ^^^
            lengthField data readLength / 2 ^ 8 % 256) ^^^
          xorFold 0 data] := by
  have hsr : ∀ x k : Nat, x >>> k = x / 2 ^ k := fun x k =>
    Nat.shiftRight_eq_div_pow x k
  unfold buildPacket transferLRC buildHeader goByte RequestSyncByte
  simp only [List.take, xorFold, List.foldl_cons, List.foldl_nil, hsr]
  rw [show ∀ m : Nat, 0 ^^^ m = m from fun m => Nat.zero_xor m,
    ← xorFold, xorFold_eq_xor]
  rfl

/-- C2: for every logical sector in the uint8 range, EraseSector issues
exactly two erase-sector commands and ProgramSector exactly one
program-sector command, and the 24-bit address fields placed on the wire
are those of (2s) << 16, (2s+1) << 16 (erase, in that order) and
(2s) << 16 (program).  Addresses of the protocol are 24-bit, so the
theorem compares the three big-endian address bytes the frame carries;
the Go uint8 arithmetic in sector*2 and sector*2+1 changes the uint32
value for s >= 128 but never these wire bytes. -/
theorem sector_commands_and_wire_addresses (s : Nat) (_hs : s < 256) :
    (EraseSectorOps s).map Prod.fst = [CMDEraseSector, CMDEraseSector] ∧
    (EraseSectorOps s).map (fun p => addrFieldBytes p.2) =
      [addrFieldBytes (2 * s * 2 ^ 16), addrFieldBytes ((2 * s + 1) * 2 ^ 16)] ∧
    (ProgramSectorOps s).map Prod.fst = [CMDProgramSector] ∧
    (ProgramSectorOps s).map (fun p => addrFieldBytes p.2) =
      [addrFieldBytes (2 * s * 2 ^ 16)] := by
  refine ⟨rfl, ?_, rfl, ?_⟩ <;>
    simp only [EraseSectorOps, ProgramSectorOps, addrFieldBytes, shl16u32,
      mul8, add8, goByte, Nat.shiftRight_eq_div_pow, List.map_cons,
      List.map_nil, List.cons.injEq, and_true] <;>
    norm_num <;> omega

/-- C2 witness: at sector 200 (where the uint8 wraparound in sector*2 is
live) the theorem instantiates and every conjunct evaluates. -/
theorem sector_commands_and_wire_addresses_witness :
    (EraseSectorOps 200).map Prod.fst = [CMDEraseSector, CMDEraseSector] ∧
    (EraseSectorOps 200).map (fun p => addrFieldBytes p.2) =
      [addrFieldBytes (2 * 200 * 2 ^ 16), addrFieldBytes ((2 * 200 + 1) * 2 ^ 16)] ∧
    (ProgramSectorOps 200).map Prod.fst = [CMDProgramSector] ∧
    (ProgramSectorOps 200).map (fun p => addrFieldBytes p.2) =
      [addrFieldBytes (2 * 200 * 2 ^ 16)] :=
  sector_commands_and_wire_addresses 200 (by decide)

/-- C9: transfer first resets the stored status bytes to 0 and overwrites
them with the two received response status bytes exactly when those bytes
are successfully read: the final stored pair equals the first two stream
bytes after the response sync byte when the packet write reported the
full packet length and at least two bytes follow the sync byte, and is
(0, 0) in every other case; in particular a write failure or a failed
sync-byte scan leaves GetStatus0 and GetStatus1 at 0 and the call in
error. -/
theorem transfer_resets_then_sets_status
    (command address : Nat) (data : List Nat) (readLength : Nat) (conn : Conn) :
    ((transfer command address data readLength conn).1 =
      match conn.writeResult, scanSync conn.input with
      | some written, some rest =>
        if written = (buildPacket command address data readLength).length ∧
            2 ≤ rest.length then
          ⟨rest.getD 0 0, rest.getD 1 0⟩
        else ⟨0, 0⟩
      | _, _ => ⟨0, 0⟩) ∧
    (conn.writeResult = none ∨ scanSync conn.input = none →
      GetStatus0 (transfer command address data readLength conn).1 = 0 ∧
      GetStatus1 (transfer command address data readLength conn).1 = 0 ∧
      ∃ e, (transfer command address data readLength conn).2 =
        Except.error e) := by
  obtain ⟨wr, input⟩ := conn
  have htail : ∀ st2 rl r, (transferTail st2 rl r).1 = st2 := by
    intro st2 rl r
    unfold transferTail
    split
    · cases readN rl r with
      | none => rfl
      | some p =>
        obtain ⟨rb, r3⟩ := p
        dsimp only
        cases readN 1 r3 <;> rfl
    · cases readN 1 r <;> rfl
  have hmain : (transfer command address data readLength ⟨wr, input⟩).1 =
      match wr, scanSync input with
      | some written, some rest =>
        if written = (buildPacket command address data readLength).length ∧
            2 ≤ rest.length then
          (⟨rest.getD 0 0, rest.getD 1 0⟩ : DPState)
        else ⟨0, 0⟩
      | _, _ => ⟨0, 0⟩ := by
    cases wr with
    | none => rfl
    | some written =>
      cases hscan : scanSync input with
      | none =>
        simp only [transfer, hscan]
        split <;> rfl
      | some rest =>
        by_cases hw : written = (buildPacket command address data readLength).length
        · match rest with
          | [] => simp [transfer, hscan, hw, readN]
          | [a] => simp [transfer, hscan, hw, readN]
          | a :: b :: t =>
            have h2 : readN 2 (a :: b :: t) = some ([a, b], t) := by
              simp [readN, List.take, List.drop]
            simp [transfer, hscan, hw, h2, htail]
        · simp [transfer, hscan, hw]
  refine ⟨hmain, fun hfail => ?_⟩
  have hz : (transfer command address data readLength ⟨wr, input⟩).1 =
      (⟨0, 0⟩ : DPState) := by
    rw [hmain]
    rcases hfail with h | h
    · simp only at h
      rw [h]
    · simp only at h
      rw [h]
      cases wr <;> rfl
  refine ⟨by rw [hz]; rfl, by rw [hz]; rfl, ?_⟩
  rcases hfail with h | h
  · simp only at h
    subst h
    exact ⟨"failed to write packet", rfl⟩
  · simp only at h
    cases wr with
    | none => exact ⟨"failed to write packet", rfl⟩
    | some written =>
      by_cases hw : written = (buildPacket command address data readLength).length
      · refine ⟨"failed to read sync byte", ?_⟩
        simp [transfer, h, hw]
      · refine ⟨"incomplete write", ?_⟩
        simp [transfer, h, hw]

/-- C9 witness: a transfer whose packet write fails outright ends with
both stored status bytes 0 and an error result. -/
theorem transfer_resets_then_sets_status_witness :
    GetStatus0 (transfer 0x11 0 [] 0 ⟨none, []⟩).1 = 0 ∧
    GetStatus1 (transfer 0x11 0 [] 0 ⟨none, []⟩).1 = 0 ∧
    ∃ e, (transfer 0x11 0 [] 0 ⟨none, []⟩).2 = Except.error e :=
  (transfer_resets_then_sets_status 0x11 0 [] 0 ⟨none, []⟩).2 (Or.inl rfl)

/-- C3 counterexample: the claim promises one read of
alignedLength = roundUpToMultipleOf4(len(data) + address % 4) bytes on
every unaligned input, but the Go code converts that length to uint16
when calling ReadBlock.  At address 2 with 65534 data bytes the aligned
length is 65536 and the issued read requests 0 bytes, so the request the
adapter makes differs from the claimed one. -/
theorem WriteBlock32_readlen_truncation_counterexample :
    (WriteBlock32 2 (List.replicate 65534 0) (some [])).1 =
      [MemOp.read 0 0] ∧
    roundUpToMultipleOf4 ((List.replicate 65534 (0 : Nat)).length + 2 % 4) =
      65536 ∧
    MemOp.read 0 0 ≠ MemOp.read 0 65536 := by
  refine ⟨?_, by rw [List.length_replicate]; norm_num [roundUpToMultipleOf4],
    by decide⟩
  have hgen : ∀ l : List Nat, l.length = 65534 →
      (WriteBlock32 2 l (some [])).1 = [MemOp.read 0 0] := by
    intro l hl
    norm_num [WriteBlock32, hl]
  exact hgen _ (List.length_replicate 65534 0)

/-- C3 (amended): provided the aligned length fits the 16-bit read-length
field, WriteBlock32 behaves exactly as claimed: an aligned
address/length pair gets exactly one direct write; otherwise exactly one
read of roundUpToMultipleOf4(len(data) + address % 4) bytes at
address - address % 4 is issued, a read yielding fewer bytes than
requested fails, and a full read is followed by exactly one write back to
the aligned address of the read buffer with the data overlaid at offset
address % 4. -/
theorem WriteBlock32_alignment_adapter (address : Nat) (data : List Nat)
    (readResult : Option (List Nat))
    (hsize : data.length + address % 4 + 3 < 2 ^ 16) :
    (address % 4 = 0 ∧ data.length % 4 = 0 →
      WriteBlock32 address data readResult =
        ([MemOp.write address data], Except.ok ())) ∧
    (¬(address % 4 = 0 ∧ data.length % 4 = 0) →
      (∀ block, readResult = some block →
        (block.length = roundUpToMultipleOf4 (data.length + address % 4) →
          WriteBlock32 address data readResult =
            ([MemOp.read (address - address % 4)
                (roundUpToMultipleOf4 (data.length + address % 4)),
              MemOp.write (address - address % 4)
                (block.take (address % 4) ++ data ++
                  block.drop (address % 4 + data.length))],
             Except.ok ())) ∧
        (block.length < roundUpToMultipleOf4 (data.length + address % 4) →
          WriteBlock32 address data readResult =
            ([MemOp.read (address - address % 4)
                (roundUpToMultipleOf4 (data.length + address % 4))],
             Except.error "read returned fewer bytes than expected"))) ∧
      (readResult = none →
        WriteBlock32 address data readResult =
          ([MemOp.read (address - address % 4)
              (roundUpToMultipleOf4 (data.length + address % 4))],
           Except.error "failed to read block for alignment"))) := by
  have hd32 : data.length % 2 ^ 32 = data.length := Nat.mod_eq_of_lt (by omega)
  have hn32 : (data.length + address % 4) % 2 ^ 32 =
      data.length + address % 4 := Nat.mod_eq_of_lt (by omega)
  have hadj : (if (data.length + address % 4) % 4 > 0 then
        (data.length + address % 4 + (4 - (data.length + address % 4) % 4)) %
          2 ^ 32
      else data.length + address % 4) =
      roundUpToMultipleOf4 (data.length + address % 4) := by
    unfold roundUpToMultipleOf4
    by_cases hm : (data.length + address % 4) % 4 = 0
    · simp [hm]
    · have h4 : (data.length + address % 4) % 4 < 4 := Nat.mod_lt _ (by omega)
      rw [if_pos (by omega), if_neg hm, Nat.mod_eq_of_lt (by omega)]
  have hru : roundUpToMultipleOf4 (data.length + address % 4) ≤
      data.length + address % 4 + 3 := by
    unfold roundUpToMultipleOf4
    by_cases hm : (data.length + address % 4) % 4 = 0
    · simp [hm]
    · have h4 : (data.length + address % 4) % 4 < 4 := Nat.mod_lt _ (by omega)
      rw [if_neg hm]
      omega
  have h16 : roundUpToMultipleOf4 (data.length + address % 4) % 2 ^ 16 =
      roundUpToMultipleOf4 (data.length + address % 4) :=
    Nat.mod_eq_of_lt (by omega)
  constructor
  · intro h
    simp only [WriteBlock32, hd32]
    rw [if_pos h]
  · intro h
    have hwb : WriteBlock32 address data readResult =
        match readResult with
        | none =>
          ([MemOp.read (address - address % 4)
              (roundUpToMultipleOf4 (data.length + address % 4))],
           .error "failed to read block for alignment")
        | some block =>
          if block.length % 2 ^ 32 ≠
              roundUpToMultipleOf4 (data.length + address % 4) then
            ([MemOp.read (address - address % 4)
                (roundUpToMultipleOf4 (data.length + address % 4))],
             .error "read returned fewer bytes than expected")
          else
            ([MemOp.read (address - address % 4)
                (roundUpToMultipleOf4 (data.length + address % 4)),
              MemOp.write (address - address % 4)
                (goCopyAt block (address % 4) data)],
             .ok ()) := by
      simp only [WriteBlock32, hd32, hn32, hadj, h16]
      rw [if_neg h]
    refine ⟨fun block hblock => ?_, fun hnone => ?_⟩
    · subst hblock
      have hwb2 : WriteBlock32 address data (some block) =
          if block.length % 2 ^ 32 ≠
              roundUpToMultipleOf4 (data.length + address % 4) then
            ([MemOp.read (address - address % 4)
                (roundUpToMultipleOf4 (data.length + address % 4))],
             .error "read returned fewer bytes than expected")
          else
            ([MemOp.read (address - address % 4)
                (roundUpToMultipleOf4 (data.length + address % 4)),
              MemOp.write (address - address % 4)
                (goCopyAt block (address % 4) data)],
             .ok ()) := by
        rw [hwb]
      constructor
      · intro hlen
        have hb32 : block.length % 2 ^ 32 = block.length :=
          Nat.mod_eq_of_lt (by omega)
        have hcover : address % 4 + data.length ≤ block.length := by
          unfold roundUpToMultipleOf4 at hlen
          by_cases hm : (data.length + address % 4) % 4 = 0
          · rw [if_pos hm] at hlen
            omega
          · rw [if_neg hm] at hlen
            omega
        have hcopy : goCopyAt block (address % 4) data =
            block.take (address % 4) ++ data ++
              block.drop (address % 4 + data.length) := by
          unfold goCopyAt
          rw [List.take_of_length_le
            (show data.length ≤ block.length - address % 4 by omega)]
        rw [hwb2, hcopy, hb32, hlen]
        simp
      · intro hlt
        have hble : block.length % 2 ^ 32 ≤ block.length := Nat.mod_le _ _
        rw [hwb2, if_pos (show block.length % 2 ^ 32 ≠
          roundUpToMultipleOf4 (data.length + address % 4) by omega)]
    · subst hnone
      rw [hwb]

/-- C3 amended-claim witness: an unaligned one-byte write at address 1
against a four-byte read buffer issues the aligned read and the
read-modify-write with the byte overlaid at offset 1. -/
theorem WriteBlock32_alignment_adapter_witness :
    WriteBlock32 1 [0xAB] (some [1, 2, 3, 4]) =
      ([MemOp.read 0 4, MemOp.write 0 [1, 0xAB, 3, 4]], Except.ok ()) := by
  have h := ((WriteBlock32_alignment_adapter 1 [0xAB] (some [1, 2, 3, 4])
    (by norm_num)).2 (by norm_num)).1 [1, 2, 3, 4] rfl
  have h2 := h.1 (by norm_num [roundUpToMultipleOf4])
  simpa [roundUpToMultipleOf4] using h2

/-- C4: the 65816 reset-vector configurator emits, for an entry address
outside bank 0, exactly the 6-byte stub 0x18 0xFB 0x5C followed by the
24-bit little-endian entry address at 0xFF80 and then 0x80 0xFF at
0xFFFC; for a bank-0 entry address, exactly the 16-bit little-endian
entry address at 0xFFFC.  The claim-side byte lists are spelled as the
little-endian encodings of the address reduced to 24 or 16 bits; the
code extracts the same bytes with shifts and byte conversions. -/
theorem setup65816Vectors_emission (entry : Nat) :
    (entry &&& 0xFF0000 ≠ 0 →
      setup65816Vectors entry =
        [(0xFF80, [0x18, 0xFB, 0x5C, entry % 2 ^ 24 % 256,
           entry % 2 ^ 24 / 2 ^ 8 % 256, entry % 2 ^ 24 / 2 ^ 16 % 256]),
         (0xFFFC, [0x80, 0xFF])]) ∧
    (entry &&& 0xFF0000 = 0 →
      setup65816Vectors entry =
        [(0xFFFC, [entry % 2 ^ 16 % 256, entry % 2 ^ 16 / 2 ^ 8 % 256])]) := by
  constructor <;> intro h <;>
    simp [setup65816Vectors, goByte, Nat.shiftRight_eq_div_pow, h] <;>
    omega

/-- C4 witness: the two spec examples.  Entry 0x018000 (bank 1) produces
the stub 18 FB 5C 00 80 01 at 0xFF80 and the vector 80 FF at 0xFFFC;
entry 0x008000 (bank 0) produces only the vector 00 80 at 0xFFFC. -/
theorem setup65816Vectors_emission_witness :
    setup65816Vectors 0x018000 =
      [(0xFF80, [0x18, 0xFB, 0x5C, 0x00, 0x80, 0x01]),
       (0xFFFC, [0x80, 0xFF])] ∧
    setup65816Vectors 0x008000 = [(0xFFFC, [0x00, 0x80])] := by
  constructor
  · have h := (setup65816Vectors_emission 0x018000).1 (by decide)
    rw [h]
    norm_num
  · have h := (setup65816Vectors_emission 0x008000).2 (by decide)
    rw [h]
    norm_num

/-- The switch of verifyCPUCompatibility accepts exactly the
family-match predicate of the claim. -/
lemma verifyCPUCompatibility_none_iff (pgxCPU : Nat) (cpu : String) :
    verifyCPUCompatibility pgxCPU cpu = none ↔
      cpuMatches pgxCPU cpu = true := by
  unfold verifyCPUCompatibility cpuMatches
  split_ifs with h1 h2 h3 <;> (simp_all; try tauto)

/-- C6: PGX processing of a well-sized, well-signed file fails with an
error and hands nothing to the write-sink whenever the version nibble of
the header byte is non-zero or the embedded CPU id nibble does not match
the configured CPU family (1 = 65816, 3 = 65C02, 2 = 680x0 family); when
both checks pass, the first write delivered is the payload at the 32-bit
little-endian header address. -/
theorem PGX_version_and_cpu_gate (data : List Nat) (cpu : String)
    (hlen : 8 ≤ data.length)
    (hsig : data.take 3 = [0x50, 0x47, 0x58]) :
    ((data.getD 3 0 >>> 4 &&& 0x0F ≠ 0 ∨
        cpuMatches (data.getD 3 0 &&& 0x0F) cpu = false) →
      (PGXProcess data cpu).1 = [] ∧ (PGXProcess data cpu).2.isSome) ∧
    ((data.getD 3 0 >>> 4 &&& 0x0F = 0 ∧
        cpuMatches (data.getD 3 0 &&& 0x0F) cpu = true) →
      (PGXProcess data cpu).1.head? =
        some (readLE32 (data.drop 4), data.drop 8)) := by
  have hnl : ¬(data.length < 8) := by omega
  have hred : PGXProcess data cpu =
      if data.getD 3 0 >>> 4 &&& 0x0F > 0 then
        ([], some "unsupported PGX version")
      else
        match verifyCPUCompatibility (data.getD 3 0 &&& 0x0F) cpu with
        | some e => ([], some e)
        | none =>
          match SetupResetVectors cpu (readLE32 (data.drop 4)) with
          | .ok vs => ((readLE32 (data.drop 4), data.drop 8) :: vs, none)
          | .error e => ([(readLE32 (data.drop 4), data.drop 8)], some e) := by
    unfold PGXProcess
    rw [if_neg hnl, if_neg (show ¬(data.take 3 ≠ [0x50, 0x47, 0x58]) by
      simp [hsig])]
  constructor
  · intro hfail
    by_cases hv : data.getD 3 0 >>> 4 &&& 0x0F = 0
    · have hc : cpuMatches (data.getD 3 0 &&& 0x0F) cpu = false := by
        rcases hfail with h | h
        · exact absurd hv h
        · exact h
      have hver : verifyCPUCompatibility (data.getD 3 0 &&& 0x0F) cpu ≠
          none := by
        rw [Ne, verifyCPUCompatibility_none_iff, hc]
        simp
      cases hv2 : verifyCPUCompatibility (data.getD 3 0 &&& 0x0F) cpu with
      | none => exact absurd hv2 hver
      | some e =>
        rw [hred, if_neg (by omega), hv2]
        exact ⟨rfl, rfl⟩
    · have hpos : data.getD 3 0 >>> 4 &&& 0x0F > 0 := Nat.pos_of_ne_zero hv
      rw [hred, if_pos hpos]
      exact ⟨rfl, rfl⟩
  · rintro ⟨hv, hc⟩
    have hver : verifyCPUCompatibility (data.getD 3 0 &&& 0x0F) cpu = none :=
      (verifyCPUCompatibility_none_iff _ _).mpr hc
    cases hsr : SetupResetVectors cpu (readLE32 (data.drop 4)) with
    | ok vs =>
      rw [hred, if_neg (by omega), hver, hsr]
      rfl
    | error e =>
      rw [hred, if_neg (by omega), hver, hsr]
      rfl

/-- C6 witness: the spec example, a version-0 680x0 PGX file with
address 0x00380000 processed under a 68000 configuration; both checks
pass and the payload is delivered first, at 0x380000. -/
theorem PGX_version_and_cpu_gate_witness :
    (PGXProcess [0x50, 0x47, 0x58, 0x02, 0x00, 0x00, 0x38, 0x00,
        0xDE, 0xAD, 0xBE, 0xEF] "68000").1.head? =
      some (0x380000, [0xDE, 0xAD, 0xBE, 0xEF]) := by
  have h := (PGX_version_and_cpu_gate
    [0x50, 0x47, 0x58, 0x02, 0x00, 0x00, 0x38, 0x00, 0xDE, 0xAD, 0xBE, 0xEF]
    "68000" (by norm_num) (by norm_num [List.take])).2 (by decide)
  simpa [readLE32] using h

/-- Writing a byte list is insensitive to reducing the start address
modulo 2^32, because every cell index is reduced anyway. -/
lemma writeBytes_congr_mod (l : List Nat) :
    ∀ mem a b, a % 2 ^ 32 = b % 2 ^ 32 →
      writeBytes mem a l = writeBytes mem b l := by
  induction l with
  | nil => intro mem a b _; rfl
  | cons x t ih =>
    intro mem a b hab
    simp only [writeBytes, hab]
    exact ih _ (a + 1) (b + 1) (by omega)

/-- Writing a concatenation writes the first part, then the second part
at the shifted start address. -/
lemma writeBytes_append (l1 : List Nat) :
    ∀ (l2 : List Nat) mem a,
      writeBytes mem a (l1 ++ l2) =
        writeBytes (writeBytes mem a l1) (a + l1.length) l2 := by
  induction l1 with
  | nil => intro l2 mem a; simp [writeBytes]
  | cons x t ih =>
    intro l2 mem a
    simp only [List.cons_append, writeBytes, List.length_cons]
    rw [show a + (t.length + 1) = a + 1 + t.length by omega]
    exact ih l2 (memUpd mem (a % 2 ^ 32) x) (a + 1)

/-- Bounds for the per-iteration chunk size. -/
lemma currentChunkSize_le (n : Nat) : currentChunkSize n ≤ n ∧
    (n ≠ 0 → 1 ≤ currentChunkSize n) ∧
    (n - currentChunkSize n ≠ 0 → currentChunkSize n = 1024) ∧
    currentChunkSize n ≤ 1024 := by
  unfold currentChunkSize
  split <;> omega

/-- The chunk loop, run with the invariant totalLength =
block.length - chunkOffset, leaves memory exactly as one write of the
block tail from chunkOffset on would. -/
lemma pgzChunkLoop_memory (address : Nat) (block : List Nat) :
    ∀ n k mem, n = block.length - k →
      applyWriteOps mem (pgzChunkLoop address block k n) =
        writeBytes mem (address + k) (block.drop k) := by
  intro n
  induction n using Nat.strong_induction_on with
  | _ n ih =>
    intro k mem hn
    by_cases h0 : n = 0
    · subst h0
      rw [pgzChunkLoop, if_pos rfl,
        List.drop_eq_nil_of_le (by omega : block.length ≤ k)]
      rfl
    · rw [pgzChunkLoop, if_neg h0]
      obtain ⟨hc, hc1, -, -⟩ := currentChunkSize_le n
      have hc1 := hc1 h0
      have hsplit : block.drop k =
          (block.drop k).take (currentChunkSize n) ++
            block.drop (k + currentChunkSize n) := by
        rw [← List.drop_drop, List.take_append_drop]
      have htk : ((block.drop k).take (currentChunkSize n)).length =
          currentChunkSize n := by
        rw [List.length_take, List.length_drop]
        omega
      simp only [applyWriteOps, List.foldl_cons]
      rw [← applyWriteOps]
      have happ : applyWriteOp mem
          ((address + k) % 2 ^ 32, (block.drop k).take (currentChunkSize n)) =
          writeBytes mem (address + k)
            ((block.drop k).take (currentChunkSize n)) := by
        unfold applyWriteOp
        exact writeBytes_congr_mod _ _ _ _ (by omega)
      rw [happ, ih (n - currentChunkSize n) (by omega)
        (k + currentChunkSize n) _ (by omega)]
      conv_rhs => rw [hsplit, writeBytes_append, htk]
      rw [show address + (k + currentChunkSize n) =
        address + k + currentChunkSize n by omega]

/-- C8: a PGZ data block larger than 1024 bytes is delivered as
consecutive write-sink calls of at most 1024 bytes, the chunk starting
at block offset 1024*i carrying the bytes from that offset and addressed
at address + 1024*i (uint32 addition); applying the chunked writes in
order to any memory yields exactly the contents of one write of the
whole block at the block address. -/
theorem PGZ_chunking_preserves_memory (address : Nat) (block : List Nat)
    (mem : Nat → Nat) (hbig : 1024 < block.length) :
    (∀ w ∈ pgzEmitBlock address block, w.2.length ≤ 1024) ∧
    (∀ i, (h : i < (pgzEmitBlock address block).length) →
      (pgzEmitBlock address block).get ⟨i, h⟩ =
        ((address + 1024 * i) % 2 ^ 32,
          (block.drop (1024 * i)).take 1024)) ∧
    applyWriteOps mem (pgzEmitBlock address block) =
      applyWriteOp mem (address, block) := by
  have hemit : pgzEmitBlock address block =
      pgzChunkLoop address block 0 block.length := by
    unfold pgzEmitBlock
    rw [if_pos hbig]
  have hstruct : ∀ n k, n = block.length - k → k < block.length →
      (∀ w ∈ pgzChunkLoop address block k n, w.2.length ≤ 1024) ∧
      (∀ i, (h : i < (pgzChunkLoop address block k n).length) →
        (pgzChunkLoop address block k n).get ⟨i, h⟩ =
          ((address + (k + 1024 * i)) % 2 ^ 32,
            (block.drop (k + 1024 * i)).take 1024)) := by
    intro n
    induction n using Nat.strong_induction_on with
    | _ n ih =>
      intro k hn hk
      have h0 : n ≠ 0 := by omega
      rw [pgzChunkLoop, if_neg h0]
      obtain ⟨hc, hc1, hc1024, hcle⟩ := currentChunkSize_le n
      have hc1 := hc1 h0
      have hhead : (block.drop k).take (currentChunkSize n) =
          (block.drop k).take 1024 := by
        rcases (show currentChunkSize n = n ∧ n < 1024 ∨
            currentChunkSize n = 1024 by
          unfold currentChunkSize; split <;> omega) with ⟨hcn, hlt⟩ | hceq
        · rw [hcn, show n = (block.drop k).length by
            rw [List.length_drop]; omega, List.take_length,
            List.take_of_length_le (by rw [List.length_drop]; omega)]
        · rw [hceq]
      constructor
      · intro w hw
        rcases List.mem_cons.mp hw with hw | hw
        · subst hw
          simp only [List.length_take, List.length_drop]
          omega
        · by_cases hnc : n - currentChunkSize n = 0
          · rw [pgzChunkLoop, if_pos hnc] at hw
            exact absurd hw (List.not_mem_nil w)
          · exact ((ih (n - currentChunkSize n) (by omega)
              (k + currentChunkSize n) (by omega) (by omega)).1) w hw
      · intro i h
        cases i with
        | zero =>
          simp only [Nat.mul_zero, Nat.add_zero]
          rw [hhead]
          rfl
        | succ j =>
          have hj : j < (pgzChunkLoop address block
              (k + currentChunkSize n) (n - currentChunkSize n)).length := by
            simpa using h
          by_cases hnc : n - currentChunkSize n = 0
          · rw [pgzChunkLoop, if_pos hnc] at hj
            simp at hj
          · have hcc : currentChunkSize n = 1024 := hc1024 hnc
            have hrec := ((ih (n - currentChunkSize n) (by omega)
              (k + currentChunkSize n) (by omega) (by omega)).2) j hj
            simp only [List.get_cons_succ]
            rw [hrec, hcc]
            have harg : 1024 + k + 1024 * j = k + 1024 * (j + 1) := by ring
            rw [show k + 1024 + 1024 * j = k + 1024 * (j + 1) by ring]
  refine ⟨?_, ?_, ?_⟩
  · rw [hemit]
    exact (hstruct block.length 0 (by omega) (by omega)).1
  · rw [hemit]
    intro i h
    have := (hstruct block.length 0 (by omega) (by omega)).2 i h
    simpa using this
  · rw [hemit, pgzChunkLoop_memory address block block.length 0 mem
      (by omega)]
    rfl

/-- C8 witness: chunking a 1025-byte block at 0x1000 leaves an
all-zero memory exactly as the single unchunked write would. -/
theorem PGZ_chunking_preserves_memory_witness :
    applyWriteOps (fun _ => 0)
        (pgzEmitBlock 0x1000 (List.replicate 1025 7)) =
      applyWriteOp (fun _ => 0) (0x1000, List.replicate 1025 7) :=
  (PGZ_chunking_preserves_memory 0x1000 (List.replicate 1025 7)
    (fun _ => 0) (by rw [List.length_replicate]; omega)).2.2

/-- C10: WDC and PGZ block parsing never reaches past the end of the
in-memory buffer: when the six (WDC) or 2*addressSize (PGZ) header bytes
do not fit, an error is returned; when a nonzero-address block declares
more data than the file holds, an error is returned; and every
successful parse, terminator included, has its whole consumed range
(header and data, ending at the returned new offset) inside the buffer. -/
theorem loader_block_parsing_in_bounds (data : List Nat)
    (offset addressSize : Nat) :
    ((data.length < offset + 6 → ∃ e, wdcReadBlock data offset = .error e) ∧
     (offset + 6 ≤ data.length → wdcAddr data offset ≠ 0 →
       data.length < offset + 6 + wdcLen data offset →
       ∃ e, wdcReadBlock data offset = .error e) ∧
     (∀ a b n, wdcReadBlock data offset = .ok (a, b, n) →
       offset + 6 ≤ data.length ∧ n ≤ data.length ∧ offset + 6 ≤ n)) ∧
    (addressSize = 3 ∨ addressSize = 4 →
     (data.length < offset + addressSize * 2 →
       ∃ e, pgzReadBlock addressSize data offset = .error e) ∧
     (offset + addressSize * 2 ≤ data.length →
       readLittleEndianInt (data.drop offset) addressSize ≠ 0 →
       readLittleEndianInt (data.drop (offset + addressSize)) addressSize ≠ 0 →
       data.length < offset + addressSize * 2 +
         readLittleEndianInt (data.drop (offset + addressSize)) addressSize →
       ∃ e, pgzReadBlock addressSize data offset = .error e) ∧
     (∀ a b n, pgzReadBlock addressSize data offset = .ok (a, b, n) →
       offset + addressSize * 2 ≤ data.length ∧ n ≤ data.length ∧
         offset + addressSize * 2 ≤ n)) := by
  constructor
  · refine ⟨fun hshort => ?_, fun hhdr haddr hdata => ?_, fun a b n hok => ?_⟩
    · refine ⟨"unexpected end of file", ?_⟩
      unfold wdcReadBlock
      rw [if_pos (by omega)]
    · refine ⟨"data block exceeds file size", ?_⟩
      unfold wdcReadBlock
      rw [if_neg (by omega), if_neg haddr, if_pos (by omega)]
    · unfold wdcReadBlock at hok
      split_ifs at hok with h1 h2 h3 <;> cases hok <;> omega
  · intro _
    refine ⟨fun hshort => ?_, fun hhdr haddr hsize hdata => ?_,
      fun a b n hok => ?_⟩
    · refine ⟨"unexpected end of file", ?_⟩
      unfold pgzReadBlock
      rw [if_pos (by omega)]
    · refine ⟨"data block exceeds file size", ?_⟩
      unfold pgzReadBlock
      rw [if_neg (by omega), if_neg haddr, if_neg hsize, if_pos (by omega)]
    · unfold pgzReadBlock at hok
      split_ifs at hok with h1 h2 h3 h4 <;> cases hok <;> omega

/-- The clamping parse never exceeds the uint32 range. -/
lemma parseHexUint32_lt (nibs : List Nat) : parseHexUint32 nibs < 2 ^ 32 := by
  unfold parseHexUint32
  split <;> omega

/-- The writes of the Go Intel HEX loop agree with the claim-side state
machine for every starting base, provided the data records are
well-formed (even digit count matching the declared byte count). -/
lemma IntelHexProcess_writes_eq (recs : List HexRecord) :
    (∀ r ∈ recs, r.rtype = 0 → r.dataNib.length % 2 = 0 ∧
      (nibsToBytes r.dataNib).length = r.byteCount) →
    ∀ base, (IntelHexProcess recs base).1 = IntelHexClaimWrites recs base := by
  induction recs with
  | nil => intro _ base; rfl
  | cons r rest ih =>
    intro hwf base
    have hwfrest : ∀ x ∈ rest, x.rtype = 0 → x.dataNib.length % 2 = 0 ∧
        (nibsToBytes x.dataNib).length = x.byteCount :=
      fun x hx => hwf x (List.mem_cons_of_mem r hx)
    have hb2 : parseHexUint32 r.dataNib % 2 ^ 32 * 2 ^ 4 % 2 ^ 32 =
        parseHexUint32 r.dataNib <<< 4 % 2 ^ 32 := by
      rw [Nat.mod_eq_of_lt (parseHexUint32_lt _), Nat.shiftLeft_eq]
    have hb4 : parseHexUint32 r.dataNib % 2 ^ 32 * 2 ^ 16 % 2 ^ 32 =
        parseHexUint32 r.dataNib <<< 16 % 2 ^ 32 := by
      rw [Nat.mod_eq_of_lt (parseHexUint32_lt _), Nat.shiftLeft_eq]
    by_cases h0 : r.rtype = 0x00
    · obtain ⟨he, hbc⟩ := hwf r (List.mem_cons_self r rest) h0
      simp only [IntelHexProcess, IntelHexClaimWrites, if_pos h0]
      rw [if_neg (by omega), if_neg (by omega)]
      rw [ih hwfrest base]
    · by_cases h1 : r.rtype = 0x01
      · simp only [IntelHexProcess, IntelHexClaimWrites, if_neg h0,
          if_pos h1]
      · by_cases h2 : r.rtype = 0x02
        · simp only [IntelHexProcess, IntelHexClaimWrites, if_neg h0,
            if_neg h1, if_pos h2]
          rw [hb2]
          exact ih hwfrest _
        · by_cases h4 : r.rtype = 0x04
          · simp only [IntelHexProcess, IntelHexClaimWrites, if_neg h0,
              if_neg h1, if_neg h2, if_pos h4]
            rw [hb4]
            exact ih hwfrest _
          · by_cases h35 : r.rtype = 0x03 ∨ r.rtype = 0x05
            · simp only [IntelHexProcess, IntelHexClaimWrites, if_neg h0,
                if_neg h1, if_neg h2, if_neg h4, if_pos h35]
              exact ih hwfrest base
            · simp only [IntelHexProcess, IntelHexClaimWrites, if_neg h0,
                if_neg h1, if_neg h2, if_neg h4, if_neg h35]

/-- C7: over records whose data digits are well-formed, the writes the
Go Intel HEX loop hands to the sink are exactly those of the running
extended-base state machine of the claim: a 0x02 record sets the base to
value << 4, a 0x04 record to value << 16, every subsequent data record
lands at base + its 16-bit record address, and a 0x01 record terminates
processing. -/
theorem IntelHex_base_and_delivery (recs : List HexRecord)
    (hwf : ∀ r ∈ recs, r.rtype = 0 → r.dataNib.length % 2 = 0 ∧
      (nibsToBytes r.dataNib).length = r.byteCount) :
    (IntelHexProcess recs 0).1 = IntelHexClaimWrites recs 0 :=
  IntelHexProcess_writes_eq recs hwf 0

/-- C7 witness: the spec example, an extended-linear-address record with
value 0xABCD followed by a two-byte data record at address 0; the data
lands at base 0xABCD0000. -/
theorem IntelHex_base_and_delivery_witness :
    (IntelHexProcess [⟨2, 0, 4, [10, 11, 12, 13]⟩,
        ⟨2, 0, 0, [13, 14, 10, 13]⟩] 0).1 =
      IntelHexClaimWrites [⟨2, 0, 4, [10, 11, 12, 13]⟩,
        ⟨2, 0, 0, [13, 14, 10, 13]⟩] 0 ∧
    (IntelHexProcess [⟨2, 0, 4, [10, 11, 12, 13]⟩,
        ⟨2, 0, 0, [13, 14, 10, 13]⟩] 0).1 =
      [(0xABCD0000, [0xDE, 0xAD])] :=
  ⟨IntelHex_base_and_delivery _ (by decide), by decide⟩

/-- C10 witness: a complete two-byte WDC block parses with its consumed
range inside the buffer, and a one-byte PGZ file in 3-byte mode is
rejected as an unexpected end of file. -/
theorem loader_block_parsing_in_bounds_witness :
    (0 + 6 ≤ ([1, 0, 0, 2, 0, 0, 0xAA, 0xBB] : List Nat).length ∧
      8 ≤ ([1, 0, 0, 2, 0, 0, 0xAA, 0xBB] : List Nat).length ∧ 0 + 6 ≤ 8) ∧
    ∃ e, pgzReadBlock 3 [0x12] 0 = .error e := by
  constructor
  · exact (loader_block_parsing_in_bounds
      [1, 0, 0, 2, 0, 0, 0xAA, 0xBB] 0 3).1.2.2 1 [0xAA, 0xBB] 8 (by rfl)
  · exact ((loader_block_parsing_in_bounds [0x12] 0 3).2 (Or.inl rfl)).1
      (by decide)

/-- C5: full-image flash programming treats a file length different from
the configured flash size as a warning only — the run is the run under a
matching configured size with the warning prepended, so the operation
proceeds identically — whereas single-sector programming returns a hard
error on a file whose length is not exactly sectorSize KB, with an empty
event trace: no hardware interaction has taken place. -/
theorem flash_size_validation_asymmetry
    (cfg : Config) (addr sectorNum : Nat) (dataF dataS : List Nat)
    (confirmAnswer isStopped : Bool)
    (hw : FlashEvent → Except String Unit) :
    (dataF.length ≠ cfg.flashSize →
      flashProgramFull cfg addr dataF confirmAnswer isStopped hw =
        (FlashEvent.warn ::
          (flashProgramFull { cfg with flashSize := dataF.length } addr dataF
            confirmAnswer isStopped hw).1,
         (flashProgramFull { cfg with flashSize := dataF.length } addr dataF
            confirmAnswer isStopped hw).2)) ∧
    (0 < cfg.flashPageSize → 0 < cfg.flashSectorSize →
      dataS.length ≠ cfg.flashSectorSize * 1024 →
      flashProgramSector cfg sectorNum dataS confirmAnswer isStopped hw =
        ([], .error "file size does not match sector size")) := by
  constructor
  · intro hne
    by_cases hc : confirmAnswer = false
    · simp [flashProgramFull, hc, hne]
    · simp [flashProgramFull, hc, hne]
  · intro hp hs hne
    unfold flashProgramSector
    rw [if_neg (by omega), if_pos hne]

/-- C5 witness: on a sector-capable f256 configuration a 2-byte file is
rejected with the size error and an empty trace, while a full-image run
with a mismatched size only gains the warning (here with the
confirmation declined, so both runs stop after validation). -/
theorem flash_size_validation_asymmetry_witness :
    flashProgramSector ⟨"65c02", 4096, 524288, 8, 8, 8⟩ 1 [0, 1] true true
        (fun _ => Except.ok ()) =
      ([], Except.error "file size does not match sector size") ∧
    flashProgramFull ⟨"65c02", 4096, 4, 0, 0, 8⟩ 0 [1, 2, 3] false true
        (fun _ => Except.ok ()) =
      ([FlashEvent.warn], Except.ok ()) := by
  constructor
  · exact (flash_size_validation_asymmetry ⟨"65c02", 4096, 524288, 8, 8, 8⟩
      0 1 [] [0, 1] true true (fun _ => Except.ok ())).2
      (by norm_num) (by norm_num) (by norm_num)
  · have h := (flash_size_validation_asymmetry ⟨"65c02", 4096, 4, 0, 0, 8⟩
      0 1 [1, 2, 3] [] false true (fun _ => Except.ok ())).1 (by norm_num)
    rw [h]
    rfl

end Foenix
